import Mathlib

/-!
# Verification of `frontend/public/ui.js`

A shallow embedding of the browser script `ui.js` (form controller of the
article generator) and theorems about it.

JavaScript strings are modelled as lists of characters.  Every operation the
script applies to strings (`trim`, `startsWith`, `includes`, `split(',')`,
`replace` on ASCII patterns, `parseInt`) looks only at characters of the Basic
Multilingual Plane, so working on code points instead of UTF-16 code units
does not change any result.  `null` and `undefined` arguments of the string
helpers are `none`.

The parsed response body is any JSON value; the `TypeError`s that the `try`
block of `generarArticulos` can raise on it are part of the model, with
their engine-dependent messages as a parameter.  `parseInt` returns a
double: the digits are rounded to 53 binary digits, or to `Infinity`.
-/

namespace UiJs

/-- A JavaScript string. -/
abbrev JSString := List Char

/-! ## String primitives of the host language -/

/-- ECMAScript `WhiteSpace` and `LineTerminator` code points: the characters
removed by `String.prototype.trim` and skipped by `parseInt`. -/
def isWhiteSpace (c : Char) : Bool :=
  let n := c.toNat
  n == 0x09 || n == 0x0A || n == 0x0B || n == 0x0C || n == 0x0D || n == 0x20 ||
  n == 0xA0 || n == 0x1680 || (0x2000 ≤ n && n ≤ 0x200A) || n == 0x2028 ||
  n == 0x2029 || n == 0x202F || n == 0x205F || n == 0x3000 || n == 0xFEFF

/-- Method `String.prototype.trimStart`. -/
def trimStart (s : JSString) : JSString := s.dropWhile isWhiteSpace

/-- Method `String.prototype.trimEnd`. -/
def trimEnd (s : JSString) : JSString := (s.reverse.dropWhile isWhiteSpace).reverse

/-- Method `String.prototype.trim`. -/
def trim (s : JSString) : JSString := trimEnd (trimStart s)

/-- Method `String.prototype.startsWith`. -/
def startsWith (s pre : JSString) : Bool := pre.isPrefixOf s

/-- Method `String.prototype.includes`: is `pat` found at some position of `s`. -/
def includes (s pat : JSString) : Bool :=
  match s with
  | [] => pat.isEmpty
  | c :: tl => pat.isPrefixOf (c :: tl) || includes tl pat

/-- Expression `x || ''` for a possibly null/undefined string `x`. -/
def orEmpty (x : Option JSString) : JSString :=
  match x with
  | some s => s
  | none => []

/-- Method `String.prototype.replace` with a regular expression that has no `g`
flag: `m rest` is the match attempt of the pattern at the position where
`rest` begins (the length of the match, if any); the leftmost position at
which the attempt succeeds is replaced by `r`, the end of input included. -/
def replaceFirst (m : JSString → Option Nat) (r : JSString) : JSString → JSString
  | [] =>
    match m [] with
    | some _ => r
    | none => []
  | c :: tl =>
    match m (c :: tl) with
    | some n => r ++ (c :: tl).drop n
    | none => c :: replaceFirst m r tl

/-- Match attempt of the pattern `\/?$`: the greedy optional slash followed by
the end of input, then, on failure, the empty alternative followed by the end
of input. -/
def matchOptSlashEnd : JSString → Option Nat
  | [] => some 0
  | c :: tl =>
    if c = '/' ∧ tl = [] then some 1 else none

/-! ## `ensureUrl` -/

/-- The constant `withProto` of `ensureUrl` (line 4), for the trimmed value
`s`. -/
def withProto (s : JSString) : JSString :=
  if startsWith s "http://".toList || startsWith s "https://".toList then s
  else "https://".toList ++ s

/-- Embedding of `ensureUrl(u)`. -/
def ensureUrl (u : Option JSString) : JSString :=
  let s := trim (orEmpty u)
  if s.isEmpty then s
  else replaceFirst matchOptSlashEnd [] (withProto s)

/-- The words of the specification of `normalizeUrl`: trim; empty stays empty;
prepend `https://` unless a scheme is there; strip one trailing slash. -/
def normalizeUrlSpec (u : Option JSString) : JSString :=
  let s := trim (orEmpty u)
  if s = [] then []
  else
    let p := if "http://".toList <+: s ∨ "https://".toList <+: s then s
             else "https://".toList ++ s
    if p.getLast? = some '/' then p.dropLast else p

/-- One trailing slash removed, when there is one. -/
def stripOneSlash (p : JSString) : JSString :=
  if p.getLast? = some '/' then p.dropLast else p

/-! ## `escapeHtml` -/

/-- Method `String.prototype.replace` with a one-character class and the `g` flag:
every character of the class is replaced by what the callback returns for
it, the other characters are kept. -/
def replaceAllClass (cls : Char → Bool) (f : Char → JSString) : JSString → JSString
  | [] => []
  | c :: tl =>
    if cls c then f c ++ replaceAllClass cls f tl else c :: replaceAllClass cls f tl

/-- The character class of the pattern in `escapeHtml`: ampersand, less-than,
greater-than, double quote (code 34) and apostrophe (code 39). -/
def isHtmlSpecial (c : Char) : Bool :=
  c == '&' || c == '<' || c == '>' || c == Char.ofNat 34 || c == Char.ofNat 39

/-- The object literal of `escapeHtml`, as its list of properties. -/
def escapeTable : List (Char × JSString) :=
  [('&', "&amp;".toList), ('<', "&lt;".toList), ('>', "&gt;".toList),
   (Char.ofNat 34, "&quot;".toList), (Char.ofNat 39, "&#39;".toList)]

/-- The callback of `escapeHtml`: the property of the object literal named by
the match; a missing property is `undefined`, which `replace` inserts as the
text `undefined`. -/
def escapeCallback (m : Char) : JSString :=
  match escapeTable.lookup m with
  | some r => r
  | none => "undefined".toList

/-- Embedding of `escapeHtml(str)`. -/
def escapeHtml (str : Option JSString) : JSString :=
  replaceAllClass isHtmlSpecial escapeCallback (orEmpty str)

/-- The words of the specification of `escapeText`, one character. -/
def escapeCharSpec (c : Char) : JSString :=
  if c = '&' then "&amp;".toList
  else if c = '<' then "&lt;".toList
  else if c = '>' then "&gt;".toList
  else if c = Char.ofNat 34 then "&quot;".toList
  else if c = Char.ofNat 39 then "&#39;".toList
  else [c]

/-- The five character references `escapeHtml` produces, without their
leading ampersand. -/
def entityTails : List JSString :=
  ["amp;".toList, "lt;".toList, "gt;".toList, "quot;".toList, "#39;".toList]

/-! ## Reading the form -/

/-- Value of a decimal digit. -/
def digitValue (c : Char) : Nat := c.toNat - '0'.toNat

/-- The sign step of `parseInt`: a leading minus makes the result negative,
and a leading minus or plus is removed. -/
def readSign (S : JSString) : Bool × JSString :=
  match S with
  | [] => (false, [])
  | c :: r =>
    if c = '-' then (true, r)
    else if c = '+' then (false, r)
    else (false, c :: r)

/-- The mathematical value of a run of decimal digits. -/
def digitsValue (Z : JSString) : Nat :=
  Z.foldl (fun acc c => 10 * acc + digitValue c) 0

/-- A Number value as `parseInt` produces them: `NaN`, a finite value (always
an integer here; the two zeros are not told apart, both are falsy), or an
infinity. -/
inductive Number where
  | nan
  | finite (v : Int)
  | infinity (negative : Bool)
deriving DecidableEq

/-- Sign change of a Number value. -/
def Number.neg : Number → Number
  | .nan => .nan
  | .finite v => .finite (-v)
  | .infinity negative => .infinity (!negative)

/-- Position of the leading binary digit of `n`, counted with `fuel` steps. -/
def log2Fuel : Nat → Nat → Nat
  | 0, _ => 0
  | fuel + 1, n => if n < 2 then 0 else log2Fuel fuel (n / 2) + 1

/-- Position of the leading binary digit of `n` (zero for `n < 2`). -/
def floorLog2 (n : Nat) : Nat := log2Fuel n n

/-- The significand of `n` after its `e` low binary digits are dropped:
rounded to the nearest, ties to the even one. -/
def roundedSignificand (n e : Nat) : Nat :=
  let q := n / 2 ^ e
  let r := n % 2 ^ e
  let half := 2 ^ (e - 1)
  if half < r ∨ (r = half ∧ q % 2 = 1) then q + 1 else q

/-- The least power of two that is no finite double. -/
def overflowThreshold : Nat := 2 ^ 1024

/-- The Number value of a mathematical non-negative integer: the nearest
double, ties to the even significand.  Below 2^53 every integer is a double;
above, `e` low binary digits are dropped so that 53 remain, and what rounds
to 2^1024 or more is `Infinity`. -/
def roundToDouble (n : Nat) : Number :=
  if n < 2 ^ 53 then .finite n
  else
    let e := floorLog2 n - 52
    let v := roundedSignificand n e * 2 ^ e
    if overflowThreshold ≤ v then .infinity false else .finite (v : Int)

/-- Embedding of `parseInt(string, 10)`: leading white space is skipped, the
sign is read, then the longest run of decimal digits; without a digit the
result is `NaN`, otherwise the Number value of the digits with the sign.
The digits are rounded correctly, as the engines do; the standard also lets
an engine read the digits after the twentieth as zeros. -/
def parseInt (string : JSString) : Number :=
  let S := trimStart string
  let signed := readSign S
  let Z := signed.2.takeWhile Char.isDigit
  if Z.isEmpty then .nan
  else if signed.1 then (roundToDouble (digitsValue Z)).neg
  else roundToDouble (digitsValue Z)

/-- Expression `x || d` for a number `x`: `NaN` and zero are falsy. -/
def orNumber (x : Number) (d : Number) : Number :=
  match x with
  | .nan => d
  | .finite v => if v = 0 then d else .finite v
  | .infinity negative => .infinity negative

/-- Method `String.prototype.split` with a one-character separator. -/
def split (sep : Char) : JSString → List JSString
  | [] => [[]]
  | c :: tl =>
    if c = sep then [] :: split sep tl
    else
      match split sep tl with
      | [] => [[c]]
      | h :: t => (c :: h) :: t

/-- Expression `x || null` for a string `x`: the empty string is falsy. -/
def orNull (x : JSString) : Option JSString :=
  if x.isEmpty then none else some x

/-- Conversion `Boolean(x)` for a string `x`. -/
def truthy (x : JSString) : Bool := !x.isEmpty

/-- The input elements read by the two operations, each with its `value`. -/
structure Form where
  api_base : JSString
  busqueda : JSString
  categoria : JSString
  num_articulos : JSString
  items_por_articulo : JSString
  tema : JSString
  kw_main : JSString
  kw_sec : JSString
deriving DecidableEq

/-- The object `payload`, as it is before `JSON.stringify` writes it as the
body (which writes an infinite number as `null`). -/
structure Payload where
  busqueda : JSString
  categoria : JSString
  num_articulos : Number
  items_por_articulo : Number
  tema : Option JSString
  palabra_clave_principal : Option JSString
  palabras_clave_secundarias : List JSString
deriving DecidableEq

/-- The secondary keywords: `value.split(',').map(s => s.trim()).filter(Boolean)`. -/
def kw_sec (value : JSString) : List JSString :=
  ((split ',' value).map trim).filter truthy

/-- The payload built from the form (lines 29-45 of `generarArticulos`, and
the same statements at lines 87-103 of `exportarXML`). -/
def payload (f : Form) : Payload :=
  let busqueda := trim f.busqueda
  let categoria := trim f.categoria
  let num_articulos := orNumber (parseInt f.num_articulos) (.finite 1)
  let items_por_articulo := orNumber (parseInt f.items_por_articulo) (.finite 5)
  let tema := trim f.tema
  let kw_main := trim f.kw_main
  let kw_sec := kw_sec f.kw_sec
  { busqueda := busqueda
    categoria := categoria
    num_articulos := num_articulos
    items_por_articulo := items_por_articulo
    tema := orNull tema
    palabra_clave_principal := orNull kw_main
    palabras_clave_secundarias := kw_sec }

/-! ## Storage -/

/-- The constant `DEFAULT_API_BASE`. -/
def DEFAULT_API_BASE : JSString :=
  "https://frontend-api-production-060a.up.railway.app".toList

/-- The part of `localStorage` the script uses: whether access succeeds (when
it does not, every access throws), and the item stored under `api_base`
(`none` when `getItem` returns `null`). -/
structure LocalStorage where
  available : Bool
  api_base : Option JSString
deriving DecidableEq

/-- Embedding of `loadApiBase()`. -/
def loadApiBase (ls : LocalStorage) : JSString :=
  if ls.available then
    match ls.api_base with
    | some saved =>
      if truthy saved && truthy (trim saved) then trim saved else DEFAULT_API_BASE
    | none => DEFAULT_API_BASE
  else DEFAULT_API_BASE

/-- Embedding of `saveApiBase(v)`. -/
def saveApiBase (ls : LocalStorage) (v : Option JSString) : LocalStorage :=
  if ls.available then { ls with api_base := some (orEmpty v) } else ls

/-! ## The response of the backend -/

/-- A value of the host language as far as `JSON.parse` produces them, and
`undefined` (what reading a missing property gives).  A number is given by
what the script can observe of it: whether it is zero (falsy) and its text
(`ToString`). -/
inductive JSValue where
  | undefined
  | null
  | bool (b : Bool)
  | number (isZero : Bool) (text : JSString)
  | string (s : JSString)
  | array (elems : List JSValue)
  | object (props : List (JSString × JSValue))

/-- Outcome of an evaluation: a value, or an exception whose `message` is
given. -/
inductive Completion (α : Type) where
  | normal (value : α)
  | throw (message : JSString)
deriving DecidableEq

/-- Sequencing: the next step runs on the value, an exception is passed on. -/
def Completion.andThen {α β : Type} (x : Completion α) (f : α → Completion β) :
    Completion β :=
  match x with
  | .normal v => f v
  | .throw m => .throw m

/-- The messages of the `TypeError`s the script can raise; they differ from
engine to engine. -/
structure Engine where
  /-- Reading property `name` of `null` or `undefined` (whose text is given). -/
  cannotRead : JSString → JSString → JSString
  /-- Calling `callee`, which is no function. -/
  notAFunction : JSString → JSString
  /-- Converting to a string an object that has no callable `toString`. -/
  cannotConvert : JSString

/-- Conversion `Boolean(x)`. -/
def JSValue.truthy : JSValue → Bool
  | .undefined => false
  | .null => false
  | .bool b => b
  | .number isZero _ => !isZero
  | .string s => !s.isEmpty
  | .array _ => true
  | .object _ => true

/-- The own property `name` of an object that has the properties `props`,
`undefined` when there is none. -/
def ownProperty (props : List (JSString × JSValue)) (name : JSString) : JSValue :=
  match props.lookup name with
  | some v => v
  | none => .undefined

/-- Has the object an own property `name`. -/
def hasOwnProperty (props : List (JSString × JSValue)) (name : JSString) : Bool :=
  (props.lookup name).isSome

/-- Reading `v.name` on a value that is neither `null` nor `undefined`, for a
name that no prototype defines (`articulos`, `titulo`, `subtitulo`,
`articulo`): the own property of an object, `undefined` on anything else. -/
def JSValue.prop (v : JSValue) (name : JSString) : JSValue :=
  match v with
  | .object props => ownProperty props name
  | _ => .undefined

/-- Reading `v.name` for such a name: a `TypeError` on `null` and
`undefined`. -/
def getProperty (eng : Engine) (v : JSValue) (name : JSString) : Completion JSValue :=
  match v with
  | .undefined => .throw (eng.cannotRead "undefined".toList name)
  | .null => .throw (eng.cannotRead "null".toList name)
  | w => .normal (w.prop name)

/-- Expression `x || d`. -/
def JSValue.orElse (x d : JSValue) : JSValue :=
  if x.truthy then x else d

/-- Conversion `Boolean(arts.length)` for a truthy `arts`: arrays and strings
have their length, an object its own property `length` if any, a boolean or
a number none. -/
def lengthTruthy (arts : JSValue) : Bool :=
  match arts with
  | .array elems => !elems.isEmpty
  | .string s => !s.isEmpty
  | .object props => (ownProperty props "length".toList).truthy
  | _ => false

mutual
/-- Conversion `ToString`, as a template literal applies it to a substituted
value.  An array is its elements joined with commas; an object is
`[object Object]`, unless an own property `toString` (no function, coming
from JSON) hides the inherited method, and then the conversion throws. -/
def toStr (eng : Engine) : JSValue → Completion JSString
  | .undefined => .normal "undefined".toList
  | .null => .normal "null".toList
  | .bool b => .normal (if b then "true".toList else "false".toList)
  | .number _ text => .normal text
  | .string s => .normal s
  | .array elems => joinComma eng elems
  | .object props =>
    if hasOwnProperty props "toString".toList then .throw eng.cannotConvert
    else .normal "[object Object]".toList
/-- Method `Array.prototype.join` with a comma: `null` and `undefined`
elements give the empty text. -/
def joinComma (eng : Engine) : List JSValue → Completion JSString
  | [] => .normal []
  | x :: t =>
    (match x with
     | .undefined => Completion.normal []
     | .null => Completion.normal []
     | v => toStr eng v).andThen fun sx =>
    (joinComma eng t).andThen fun st =>
    .normal (if t.isEmpty then sx else sx ++ ',' :: st)
end

/-- Outcome of a promise: fulfilled with a value, or rejected with an error
whose `message` is given. -/
inductive Outcome (α : Type) where
  | fulfilled (value : α)
  | rejected (message : JSString)

/-- A response: `ok`, `status`, and the outcome of each way of reading the
body. -/
structure Response where
  ok : Bool
  status : Nat
  text : Outcome JSString
  json : Outcome JSValue
  blob : Outcome (List Nat)

/-- The request passed to `fetch`: the address and the payload serialised as
its body (method and headers are constant). -/
structure Request where
  url : JSString
  body : Payload
deriving DecidableEq

/-! ## The page -/

/-- The state the script reads and writes: the form, the text of `#status`,
the `innerHTML` of `#preview`, `localStorage`, the messages shown by `alert`
and the downloads triggered (file name and content), oldest first. -/
structure Page where
  form : Form
  status : JSString
  preview : JSString
  storage : LocalStorage
  alerts : List JSString
  downloads : List (JSString × List Nat)

/-- A number substituted in a template literal, for a natural number. -/
def numberToString (n : Nat) : JSString := Nat.toDigits 10 n

/-- Method `Array.prototype.map` with a callback that takes the element and
its index and may throw; `i` is the index of the first element.  The first
exception ends the call. -/
def mapIndexed {α β : Type} (f : α → Nat → Completion β) : List α → Nat → Completion (List β)
  | [], _ => .normal []
  | a :: tl, i =>
    (f a i).andThen fun b =>
    (mapIndexed f tl (i + 1)).andThen fun bs =>
    .normal (b :: bs)

/-- Method `Array.prototype.join('')` on strings. -/
def joinEmpty : List JSString → JSString
  | [] => []
  | h :: t => h ++ joinEmpty t

/-- A call `escapeHtml(str)` with any value: after `str || ''` a string is
escaped, and a truthy value that is no string has no method `replace`, so
the call throws. -/
def escapeHtmlCall (eng : Engine) (str : JSValue) : Completion JSString :=
  match str.orElse (.string []) with
  | .string s => .normal (escapeHtml (some s))
  | _ =>
    .throw (eng.notAFunction
      ("(str || ".toList ++ [Char.ofNat 39, Char.ofNat 39] ++ ").replace".toList))

/-- The template literal of one article (lines 68-74), with `a` and `i`. -/
def articleTemplate (eng : Engine) (a : JSValue) (i : Nat) : Completion JSString :=
  (getProperty eng a "titulo".toList).andThen fun titulo =>
  (escapeHtmlCall eng
    (titulo.orElse (.string ("Artículo ".toList ++ numberToString (i + 1))))).andThen fun h =>
  (getProperty eng a "subtitulo".toList).andThen fun subtitulo =>
  (escapeHtmlCall eng (subtitulo.orElse (.string []))).andThen fun sub =>
  (getProperty eng a "articulo".toList).andThen fun articulo =>
  (toStr eng articulo).andThen fun body =>
  .normal
    ("\n        <div class=\"mb-4\">\n          <h4 class=\"mb-1\">".toList
    ++ h
    ++ "</h4>\n          <div class=\"text-muted mb-2\">".toList
    ++ sub
    ++ ("</div>\n          <div class=\"border rounded p-3 bg-white\" " ++
        "style=\"white-space:pre-wrap\">").toList
    ++ body
    ++ "</div>\n        </div>\n      ".toList)

/-- The warning notice of line 66. -/
def warningNotice : JSString :=
  "<div class=\"alert alert-warning\">No se generaron artículos.</div>".toList

/-- The markup of lines 63-76 for the parsed body `data`: what is assigned to
the preview, or the exception raised on the way. -/
def renderPreview (eng : Engine) (data : JSValue) : Completion JSString :=
  (getProperty eng data "articulos".toList).andThen fun articulos =>
  let arts := articulos.orElse (.array [])
  if !lengthTruthy arts then .normal warningNotice
  else
    match arts with
    | .array elems =>
      (mapIndexed (articleTemplate eng) elems 0).andThen fun blocks =>
      .normal (joinEmpty blocks)
    | _ => .throw (eng.notAFunction "arts.map".toList)

/-- The `catch` block of `generarArticulos` (lines 78-81). -/
def generarCatch (pg : Page) (message : JSString) : Page :=
  { pg with
    status := "Error".toList
    preview := "<div class=\"alert alert-danger\">".toList
      ++ escapeHtml (some message) ++ "</div>".toList }

/-- The request of `generarArticulos` (lines 27-45 and 53-57). -/
def generarRequest (pg : Page) : Request :=
  { url := ensureUrl (some pg.form.api_base) ++ "/generar-articulos".toList
    body := payload pg.form }

/-- Embedding of `generarArticulos()`; `fetch` gives the outcome of the
network call for the request, `eng` the messages of the engine. -/
def generarArticulos (eng : Engine) (pg : Page) (fetch : Request → Outcome Response) : Page :=
  let apiBase := ensureUrl (some pg.form.api_base)
  let pg1 : Page :=
    { pg with
      storage := saveApiBase pg.storage (some apiBase)
      status := "Generando artículos...".toList
      preview := [] }
  match fetch (generarRequest pg) with
  | .rejected message => generarCatch pg1 message
  | .fulfilled res =>
    if !res.ok then
      match res.text with
      | .rejected message => generarCatch pg1 message
      | .fulfilled txt =>
        generarCatch pg1
          ("Error ".toList ++ numberToString res.status ++ ": ".toList ++ txt)
    else
      match res.json with
      | .rejected message => generarCatch pg1 message
      | .fulfilled data =>
        match renderPreview eng data with
        | .throw message => generarCatch pg1 message
        | .normal html => { pg1 with preview := html, status := "Completado".toList }

/-- The request of `exportarXML` (lines 85-103 and 109-113). -/
def exportarRequest (pg : Page) : Request :=
  { url := ensureUrl (some pg.form.api_base) ++ "/export/wp-all-import/file".toList
    body := payload pg.form }

/-- The `catch` block of `exportarXML` (lines 128-131). -/
def exportarCatch (pg : Page) (message : JSString) : Page :=
  { pg with status := "Error".toList, alerts := pg.alerts ++ [message] }

/-- Embedding of `exportarXML()`. -/
def exportarXML (pg : Page) (fetch : Request → Outcome Response) : Page :=
  let apiBase := ensureUrl (some pg.form.api_base)
  let pg1 : Page :=
    { pg with
      storage := saveApiBase pg.storage (some apiBase)
      status := "Generando XML...".toList }
  match fetch (exportarRequest pg) with
  | .rejected message => exportarCatch pg1 message
  | .fulfilled res =>
    if !res.ok then
      match res.text with
      | .rejected message => exportarCatch pg1 message
      | .fulfilled txt =>
        exportarCatch pg1
          ("Error ".toList ++ numberToString res.status ++ ": ".toList ++ txt)
    else
      match res.blob with
      | .rejected message => exportarCatch pg1 message
      | .fulfilled blob =>
        { pg1 with
          downloads := pg1.downloads ++ [("theobjective_articulos.xml".toList, blob)]
          status := "XML descargado".toList }

/-- The `DOMContentLoaded` handler (lines 140-147), for a page that has the
`api_base` input. -/
def onDOMContentLoaded (pg : Page) : Page :=
  let current := trim (orEmpty (some pg.form.api_base))
  if current.isEmpty || includes current "localhost".toList then
    { pg with form := { pg.form with api_base := loadApiBase pg.storage } }
  else pg

/-- Does the address start with `http://` or `https://`. -/
def hasScheme (r : JSString) : Bool :=
  startsWith r "http://".toList || startsWith r "https://".toList

/-- The characters that open or close a tag or delimit an attribute value:
less-than, greater-than, double quote (code 34) and apostrophe (code 39). -/
def isMarkupDelimiter (c : Char) : Bool :=
  c == '<' || c == '>' || c == Char.ofNat 34 || c == Char.ofNat 39

/-- Every ampersand of the text is immediately followed by one of the five
reference tails. -/
def AmpersandsEscaped (l : JSString) : Prop :=
  ∀ pre post, l = pre ++ '&' :: post → ∃ e ∈ entityTails, e <+: post

/-! ## Sample inputs -/

/-- A page with an empty form, before any operation. -/
def emptyPage : Page :=
  { form :=
      { api_base := [], busqueda := [], categoria := [], num_articulos := [],
        items_por_articulo := [], tema := [], kw_main := [], kw_sec := [] }
    status := []
    preview := []
    storage := { available := true, api_base := none }
    alerts := []
    downloads := [] }

/-- A page whose API-base field holds `example.com/`. -/
def examplePage : Page :=
  { emptyPage with form := { emptyPage.form with api_base := "example.com/".toList } }

/-- A response with the given `ok`, `status`, body text and parsed body. -/
def sampleResponse (ok : Bool) (status : Nat) (text : JSString) (data : JSValue) : Response :=
  { ok := ok, status := status, text := .fulfilled text, json := .fulfilled data,
    blob := .fulfilled [] }

/-- Messages in the style of one engine, for the examples; the quoted
property name is written with the apostrophe, code 39. -/
def sampleEngine : Engine :=
  { cannotRead := fun value name =>
      "Cannot read properties of ".toList ++ value ++ " (reading ".toList
        ++ [Char.ofNat 39] ++ name ++ [Char.ofNat 39] ++ ")".toList
    notAFunction := fun callee => callee ++ " is not a function".toList
    cannotConvert := "Cannot convert object to primitive value".toList }

/-- The article of the example of the specification:
`{titulo: "T", subtitulo: "S", articulo: "<b>x</b>"}`. -/
def sampleArticulo : JSValue :=
  .object [("titulo".toList, .string "T".toList), ("subtitulo".toList, .string "S".toList),
    ("articulo".toList, .string "<b>x</b>".toList)]

/-- An article without title and subtitle: `{articulo: "y"}`. -/
def untitledArticulo : JSValue :=
  .object [("articulo".toList, .string "y".toList)]

/-- An article whose title is a number: `{titulo: 123, subtitulo: "S",
articulo: "<b>x</b>"}`. -/
def numberTitleArticulo : JSValue :=
  .object [("titulo".toList, .number false "123".toList),
    ("subtitulo".toList, .string "S".toList), ("articulo".toList, .string "<b>x</b>".toList)]

/-- The body `{articulos: arts}`. -/
def bodyWith (arts : JSValue) : JSValue :=
  .object [("articulos".toList, arts)]

/-- Is the value `null` or `undefined`. -/
def JSValue.isNullish : JSValue → Bool
  | .undefined => true
  | .null => true
  | _ => false

/-- The string that `t || d` is, for a `t` that is missing, `null` or a
string and a string `d`. -/
def JSValue.textOr (t : JSValue) (d : JSString) : JSString :=
  match t with
  | .string s => if s = [] then d else s
  | _ => d

/-- The text a template literal inserts for a value that is missing, `null`
or a string. -/
def JSValue.bodyText (w : JSValue) : JSString :=
  match w with
  | .string b => b
  | .null => "null".toList
  | _ => "undefined".toList

/-- Is the value `undefined`, `null` or a string. -/
def isAbsentNullOrString : JSValue → Bool
  | .undefined => true
  | .null => true
  | .string _ => true
  | _ => false

/-- Method `Array.prototype.join` with a one-character separator, the inverse of
`split`. -/
def joinWith (sep : Char) : List JSString → JSString
  | [] => []
  | [x] => x
  | x :: y :: t => x ++ sep :: joinWith sep (y :: t)

/-! ## `ensureUrl`: lemmas and claims -/

theorem replaceFirst_optSlashEnd (p : JSString) :
    replaceFirst matchOptSlashEnd [] p = stripOneSlash p := by
  induction p with
  | nil => simp [replaceFirst, matchOptSlashEnd, stripOneSlash]
  | cons c tl ih =>
    cases tl with
    | nil =>
      by_cases hc : c = '/'
      · simp [replaceFirst, matchOptSlashEnd, stripOneSlash, hc]
      · simp [replaceFirst, matchOptSlashEnd, stripOneSlash, hc]
    | cons d tl2 =>
      have hm : matchOptSlashEnd (c :: d :: tl2) = none := by
        simp [matchOptSlashEnd]
      rw [replaceFirst, hm]
      simp only [ih]
      unfold stripOneSlash
      by_cases hl : (d :: tl2).getLast? = some '/'
      · have hl2 : (c :: d :: tl2).getLast? = some '/' := by
          rw [List.getLast?_cons_cons]; exact hl
        rw [if_pos hl, if_pos hl2]; rfl
      · have hl2 : ¬ (c :: d :: tl2).getLast? = some '/' := by
          rw [List.getLast?_cons_cons]; exact hl
        rw [if_neg hl, if_neg hl2]

theorem startsWith_iff (s pre : JSString) : startsWith s pre = true ↔ pre <+: s := by
  simp [startsWith]

theorem ensureUrl_eq_spec (u : Option JSString) : ensureUrl u = normalizeUrlSpec u := by
  unfold ensureUrl normalizeUrlSpec withProto
  simp only [replaceFirst_optSlashEnd, stripOneSlash, List.isEmpty_iff, Bool.or_eq_true,
    startsWith_iff]
  by_cases h : trim (orEmpty u) = []
  · simp [h]
  · simp only [h, if_false]

/-- The address after the scheme step of `ensureUrl`, for a trimmed value:
a scheme followed by a rest that is empty only for a bare scheme. -/
theorem withProto_cases (s : JSString) (hs : s ≠ []) :
    ∃ pre rest, (pre = "http://".toList ∨ pre = "https://".toList) ∧
      (if "http://".toList <+: s ∨ "https://".toList <+: s then s
        else "https://".toList ++ s) = pre ++ rest ∧
      (rest = [] ↔ (s = "http://".toList ∨ s = "https://".toList)) := by
  by_cases h1 : "http://".toList <+: s
  · obtain ⟨t, ht⟩ := h1
    refine ⟨_, t, Or.inl rfl, ?_, ?_⟩
    · rw [if_pos (Or.inl ⟨t, ht⟩)]; exact ht.symm
    · subst ht
      constructor
      · intro h; left; simp [h]
      · rintro (h | h)
        · simpa using h
        · exact absurd h (by simp)
  · by_cases h2 : "https://".toList <+: s
    · obtain ⟨t, ht⟩ := h2
      refine ⟨_, t, Or.inr rfl, ?_, ?_⟩
      · rw [if_pos (Or.inr ⟨t, ht⟩)]; exact ht.symm
      · subst ht
        constructor
        · intro h; right; simp [h]
        · rintro (h | h)
          · exact absurd h (by simp)
          · simpa using h
    · refine ⟨_, s, Or.inr rfl, ?_, ?_⟩
      · rw [if_neg (by tauto)]
      · constructor
        · intro h; exact absurd h hs
        · rintro (h | h)
          · exact absurd (h ▸ List.prefix_refl _) h1
          · exact absurd (h ▸ List.prefix_refl _) h2

theorem stripOneSlash_getLast (p : JSString) :
    (stripOneSlash p).getLast? = some '/' ↔ ['/', '/'] <:+ p := by
  rcases List.eq_nil_or_concat p with rfl | ⟨q, c, rfl⟩
  · simp [stripOneSlash]
  · unfold stripOneSlash
    by_cases hc : c = '/'
    · subst hc
      simp only [List.concat_eq_append, List.getLast?_append, List.getLast?_singleton,
        Option.or_some, if_true, List.dropLast_concat]
      constructor
      · intro h
        obtain ⟨r, hr⟩ : ∃ r, q = r ++ ['/'] := by
          rcases List.eq_nil_or_concat q with rfl | ⟨r, d, rfl⟩
          · simp at h
          · simp at h; exact ⟨r, by simp [h]⟩
        exact ⟨r, by simp [hr]⟩
      · rintro ⟨r, hr⟩
        have : r ++ ['/'] ++ ['/'] = q ++ ['/'] := by simpa using hr
        have hq := List.append_cancel_right this
        simp [← hq]
    · have h1 : ¬ (q.concat c).getLast? = some '/' := by simp [hc]
      rw [if_neg h1]
      constructor
      · intro h; exact absurd h h1
      · rintro ⟨r, hr⟩
        have : r ++ ['/'] ++ ['/'] = q ++ [c] := by simpa using hr
        have := List.append_inj_right' this rfl
        simp at this; exact absurd this.symm hc

theorem withProto_eq (s : JSString) :
    withProto s = (if "http://".toList <+: s ∨ "https://".toList <+: s then s
        else "https://".toList ++ s) := by
  unfold withProto
  simp only [Bool.or_eq_true, startsWith_iff]

theorem ensureUrl_of_ne_nil (v : JSString) (h : trim v ≠ []) :
    ensureUrl (some v) = stripOneSlash (withProto (trim v)) := by
  unfold ensureUrl
  simp [orEmpty, h, replaceFirst_optSlashEnd]

theorem stripOneSlash_append (pre rest : JSString) (h : rest ≠ []) :
    stripOneSlash (pre ++ rest) = pre ++ stripOneSlash rest := by
  unfold stripOneSlash
  rw [List.getLast?_append_of_ne_nil _ h]
  by_cases hl : rest.getLast? = some '/'
  · rw [if_pos hl, if_pos hl, List.dropLast_append_of_ne_nil _ h]
  · rw [if_neg hl, if_neg hl]

theorem hasScheme_append (pre x : JSString)
    (hp : pre = "http://".toList ∨ pre = "https://".toList) :
    hasScheme (pre ++ x) = true := by
  unfold hasScheme
  rw [Bool.or_eq_true, startsWith_iff, startsWith_iff]
  rcases hp with rfl | rfl
  · exact Or.inl (List.prefix_append _ _)
  · exact Or.inr (List.prefix_append _ _)

theorem hasScheme_ensureUrl (v : JSString) (h : trim v ≠ []) :
    hasScheme (ensureUrl (some v)) = true ↔
      (trim v ≠ "http://".toList ∧ trim v ≠ "https://".toList) := by
  rw [ensureUrl_of_ne_nil v h, withProto_eq]
  obtain ⟨pre, rest, hpre, hp, hrest⟩ := withProto_cases (trim v) h
  rw [hp]
  by_cases hr : rest = []
  · have hb := hrest.mp hr
    subst hr
    constructor
    · intro hh
      exfalso
      rcases hpre with rfl | rfl
      · revert hh; decide
      · revert hh; decide
    · intro hh; tauto
  · rw [stripOneSlash_append _ _ hr]
    constructor
    · intro _
      have := mt hrest.mpr hr
      tauto
    · intro _; exact hasScheme_append _ _ hpre

theorem generarArticulos_storage (eng : Engine) (pg : Page)
    (fetch : Request → Outcome Response) :
    (generarArticulos eng pg fetch).storage =
      saveApiBase pg.storage (some (ensureUrl (some pg.form.api_base))) := by
  unfold generarArticulos
  cases fetch (generarRequest pg) with
  | rejected m => rfl
  | fulfilled res =>
    cases hok : res.ok with
    | false =>
      cases ht : res.text <;> simp [hok, ht, generarCatch]
    | true =>
      cases hj : res.json with
      | rejected m => simp [hok, hj, generarCatch]
      | fulfilled data =>
        simp only [hok, hj, Bool.not_true, Bool.false_eq_true, if_false]
        cases renderPreview eng data <;> rfl

theorem exportarXML_storage (pg : Page) (fetch : Request → Outcome Response) :
    (exportarXML pg fetch).storage =
      saveApiBase pg.storage (some (ensureUrl (some pg.form.api_base))) := by
  unfold exportarXML
  cases fetch (exportarRequest pg) with
  | rejected m => rfl
  | fulfilled res =>
    cases hok : res.ok with
    | false =>
      cases ht : res.text <;> simp [hok, ht, exportarCatch]
    | true =>
      cases hj : res.blob <;> simp [hok, hj, exportarCatch]

/-- C1: `ensureUrl` agrees with the specification of `normalizeUrl` on every
input, `null`/`undefined` included: with `s` the trimmed input, the result is
empty when `s` is empty, and otherwise it is `p` without its last character
when `p` ends with a slash and `p` itself when not, where `p` is `s` if `s`
starts with `http://` or `https://` and `https://` followed by `s` if not.
The four examples of the specification hold. -/
theorem C1_ensureUrl_spec :
    (∀ u : Option JSString, ensureUrl u = normalizeUrlSpec u) ∧
    ensureUrl none = [] ∧
    ensureUrl (some "example.com/".toList) = "https://example.com".toList ∧
    ensureUrl (some "http://x.com".toList) = "http://x.com".toList ∧
    ensureUrl (some "".toList) = "".toList ∧
    ensureUrl (some "  ".toList) = "".toList :=
  ⟨ensureUrl_eq_spec, by decide, by decide, by decide, by decide, by decide⟩

/-- C2, as stated, fails: for the field value `https://` the normalized
address is `https:/`, which has no scheme and ends with a slash; for `a//` it
is `https://a/`, which ends with a slash.  Both values are what the two
operations send and persist. -/
theorem C2_counterexample :
    (trim "https://".toList ≠ [] ∧
      ensureUrl (some "https://".toList) = "https:/".toList ∧
      hasScheme (ensureUrl (some "https://".toList)) = false ∧
      (ensureUrl (some "https://".toList)).getLast? = some '/') ∧
    (trim "a//".toList ≠ [] ∧
      ensureUrl (some "a//".toList) = "https://a/".toList ∧
      (ensureUrl (some "a//".toList)).getLast? = some '/') := by
  decide

/-- C2, amended: for every page whose API-base field has a non-empty trimmed
value `s`, the address `r` returned by `ensureUrl` is the prefix of both
request addresses and the value persisted when storage is available; `r`
starts with `http://` or `https://` exactly when `s` is not a bare scheme
(`http://` or `https://` alone), and `r` ends with a slash exactly when the
address with its scheme, `withProto s`, ends with two slashes (one trailing
slash is removed, not all). -/
theorem C2_apiBase_normalized (eng : Engine) (pg : Page)
    (fetch : Request → Outcome Response) (h : trim pg.form.api_base ≠ []) :
    (generarRequest pg).url
      = ensureUrl (some pg.form.api_base) ++ "/generar-articulos".toList ∧
    (exportarRequest pg).url
      = ensureUrl (some pg.form.api_base) ++ "/export/wp-all-import/file".toList ∧
    (pg.storage.available = true →
      (generarArticulos eng pg fetch).storage.api_base
        = some (ensureUrl (some pg.form.api_base)) ∧
      (exportarXML pg fetch).storage.api_base = some (ensureUrl (some pg.form.api_base))) ∧
    (hasScheme (ensureUrl (some pg.form.api_base)) = true ↔
      (trim pg.form.api_base ≠ "http://".toList ∧
        trim pg.form.api_base ≠ "https://".toList)) ∧
    ((ensureUrl (some pg.form.api_base)).getLast? = some '/' ↔
      ['/', '/'] <:+ withProto (trim pg.form.api_base)) := by
  refine ⟨rfl, rfl, ?_, hasScheme_ensureUrl _ h, ?_⟩
  · intro ha
    rw [generarArticulos_storage, exportarXML_storage]
    simp [saveApiBase, ha, orEmpty]
  · rw [ensureUrl_of_ne_nil _ h]
    exact stripOneSlash_getLast _

/-- C2 (amended) at the field value `example.com/`. -/
theorem C2_apiBase_normalized_witness :
    trim examplePage.form.api_base ≠ [] ∧
    ensureUrl (some examplePage.form.api_base) = "https://example.com".toList ∧
    hasScheme (ensureUrl (some examplePage.form.api_base)) = true ∧
    ¬ (ensureUrl (some examplePage.form.api_base)).getLast? = some '/' :=
  ⟨by decide, by decide,
   (C2_apiBase_normalized sampleEngine examplePage (fun _ => .rejected []) (by decide)).2.2.2.1.mpr
     (by decide),
   fun h => absurd
     ((C2_apiBase_normalized sampleEngine examplePage (fun _ => .rejected []) (by decide)).2.2.2.2.mp h)
     (by decide)⟩

/-! ## `escapeHtml`: lemmas -/

theorem escape_step (c : Char) :
    (if isHtmlSpecial c then escapeCallback c else [c]) = escapeCharSpec c := by
  by_cases h1 : c = '&'
  · subst h1; decide
  by_cases h2 : c = '<'
  · subst h2; decide
  by_cases h3 : c = '>'
  · subst h3; decide
  by_cases h4 : c = Char.ofNat 34
  · subst h4; decide
  by_cases h5 : c = Char.ofNat 39
  · subst h5; decide
  have hs : isHtmlSpecial c = false := by
    simp [isHtmlSpecial, h1, h2, h3, h4, h5]
  simp [hs, escapeCharSpec, h1, h2, h3, h4, h5]

theorem replaceAllClass_cons (cls : Char → Bool) (f : Char → JSString) (c : Char)
    (tl : JSString) :
    replaceAllClass cls f (c :: tl)
      = (if cls c then f c else [c]) ++ replaceAllClass cls f tl := by
  rw [replaceAllClass]
  split <;> simp

theorem escapeHtml_eq_spec (s : JSString) :
    escapeHtml (some s) = joinEmpty (s.map escapeCharSpec) := by
  unfold escapeHtml orEmpty
  induction s with
  | nil => rfl
  | cons c tl ih =>
    simp only at ih
    simp only [replaceAllClass_cons, escape_step, List.map_cons, joinEmpty, ih]

theorem escapeHtml_cons (c : Char) (tl : JSString) :
    escapeHtml (some (c :: tl)) = escapeCharSpec c ++ escapeHtml (some tl) := by
  rw [escapeHtml_eq_spec, escapeHtml_eq_spec]; rfl

/-- What one character becomes: itself when it is no special character, and
an ampersand followed by a reference tail when it is. -/
theorem escapeCharSpec_cases (c : Char) :
    (escapeCharSpec c = [c] ∧ c ≠ '&' ∧ isMarkupDelimiter c = false) ∨
    (∃ e ∈ entityTails, escapeCharSpec c = '&' :: e ∧
      ∀ x ∈ e, x ≠ '&' ∧ isMarkupDelimiter x = false) := by
  by_cases h1 : c = '&'
  · subst h1; right; exact ⟨"amp;".toList, by decide, by decide, by decide⟩
  by_cases h2 : c = '<'
  · subst h2; right; exact ⟨"lt;".toList, by decide, by decide, by decide⟩
  by_cases h3 : c = '>'
  · subst h3; right; exact ⟨"gt;".toList, by decide, by decide, by decide⟩
  by_cases h4 : c = Char.ofNat 34
  · subst h4; right; exact ⟨"quot;".toList, by decide, by decide, by decide⟩
  by_cases h5 : c = Char.ofNat 39
  · subst h5; right; exact ⟨"#39;".toList, by decide, by decide, by decide⟩
  left
  refine ⟨by simp [escapeCharSpec, h1, h2, h3, h4, h5], h1, ?_⟩
  simp [isMarkupDelimiter, h2, h3, h4, h5]

theorem ampersandsEscaped_cons (c : Char) (l : JSString) (hc : c ≠ '&')
    (hl : AmpersandsEscaped l) : AmpersandsEscaped (c :: l) := by
  intro pre post h
  cases pre with
  | nil =>
    simp only [List.nil_append, List.cons.injEq] at h
    exact absurd h.1 hc
  | cons d pre2 =>
    simp only [List.cons_append, List.cons.injEq] at h
    exact hl pre2 post h.2

theorem ampersandsEscaped_append (e l : JSString) (he : ∀ x ∈ e, x ≠ '&')
    (hl : AmpersandsEscaped l) : AmpersandsEscaped (e ++ l) := by
  induction e with
  | nil => simpa using hl
  | cons x e2 ih =>
    have hx : x ≠ '&' := he x (List.mem_cons_self _ _)
    have h2 : ∀ y ∈ e2, y ≠ '&' := fun y hy => he y (List.mem_cons_of_mem _ hy)
    exact ampersandsEscaped_cons x (e2 ++ l) hx (ih h2)

theorem ampersandsEscaped_entity (e l : JSString) (hmem : e ∈ entityTails)
    (he : ∀ x ∈ e, x ≠ '&') (hl : AmpersandsEscaped l) :
    AmpersandsEscaped ('&' :: (e ++ l)) := by
  intro pre post h
  cases pre with
  | nil =>
    simp only [List.nil_append, List.cons.injEq, true_and] at h
    exact ⟨e, hmem, by rw [← h]; exact List.prefix_append _ _⟩
  | cons d pre2 =>
    simp only [List.cons_append, List.cons.injEq] at h
    exact ampersandsEscaped_append e l he hl pre2 post h.2

theorem escapeHtml_ampersands (s : JSString) : AmpersandsEscaped (escapeHtml (some s)) := by
  induction s with
  | nil =>
    intro pre post h
    have : escapeHtml (some []) = [] := rfl
    rw [this] at h
    cases pre <;> simp at h
  | cons c tl ih =>
    rw [escapeHtml_cons]
    rcases escapeCharSpec_cases c with ⟨h1, h2, _⟩ | ⟨e, hmem, h1, h2⟩
    · rw [h1]; exact ampersandsEscaped_cons c _ h2 ih
    · rw [h1]
      exact ampersandsEscaped_entity e _ hmem (fun x hx => (h2 x hx).1) ih

theorem escapeHtml_no_delimiter (s : JSString) :
    ∀ x ∈ escapeHtml (some s), isMarkupDelimiter x = false := by
  induction s with
  | nil => intro x hx; exact absurd hx (List.not_mem_nil x)
  | cons c tl ih =>
    rw [escapeHtml_cons]
    intro x hx
    rcases List.mem_append.mp hx with hx | hx
    · rcases escapeCharSpec_cases c with ⟨h1, _, h3⟩ | ⟨e, _, h1, h2⟩
      · rw [h1] at hx
        rw [List.mem_singleton.mp hx]; exact h3
      · rw [h1] at hx
        rcases List.mem_cons.mp hx with hx | hx
        · rw [hx]; decide
        · exact (h2 x hx).2
    · exact ih x hx

/-! ## `generarArticulos`, by outcome of the network call -/

theorem generarArticulos_not_ok (eng : Engine) (pg : Page)
    (fetch : Request → Outcome Response) (res : Response) (t : JSString)
    (hf : fetch (generarRequest pg) = .fulfilled res) (hok : res.ok = false)
    (ht : res.text = .fulfilled t) :
    generarArticulos eng pg fetch =
      generarCatch
        { pg with
          storage := saveApiBase pg.storage (some (ensureUrl (some pg.form.api_base)))
          status := "Generando artículos...".toList
          preview := [] }
        ("Error ".toList ++ numberToString res.status ++ ": ".toList ++ t) := by
  unfold generarArticulos
  simp [hf, hok, ht]

theorem generarArticulos_ok_normal (eng : Engine) (pg : Page)
    (fetch : Request → Outcome Response) (res : Response) (data : JSValue) (html : JSString)
    (hf : fetch (generarRequest pg) = .fulfilled res) (hok : res.ok = true)
    (hj : res.json = .fulfilled data) (hr : renderPreview eng data = .normal html) :
    (generarArticulos eng pg fetch).status = "Completado".toList ∧
    (generarArticulos eng pg fetch).preview = html := by
  unfold generarArticulos
  simp only [hf, hok, hj, hr, Bool.not_true, Bool.false_eq_true, if_false]
  exact ⟨trivial, trivial⟩

theorem andThen_eq_normal {α β : Type} (x : Completion α) (f : α → Completion β) (y : β) :
    x.andThen f = .normal y ↔ ∃ v, x = .normal v ∧ f v = .normal y := by
  cases x with
  | normal v => simp [Completion.andThen]
  | throw m => simp [Completion.andThen]

theorem getProperty_normal (eng : Engine) (v : JSValue) (name : JSString)
    (h : v.isNullish = false) : getProperty eng v name = .normal (v.prop name) := by
  cases v <;> first | rfl | exact absurd h (by decide)

theorem escapeHtmlCall_normal (eng : Engine) (v : JSValue) (h : JSString)
    (hv : escapeHtmlCall eng v = .normal h) : ∃ o : Option JSString, h = escapeHtml o := by
  unfold escapeHtmlCall at hv
  split at hv
  · rename_i s _
    simp only [Completion.normal.injEq] at hv
    exact ⟨some s, hv.symm⟩
  · exact absurd hv (by simp)

/-- What a rendered article is made of: constant texts, two results of
`escapeHtml` and the converted body. -/
theorem articleTemplate_normal (eng : Engine) (a : JSValue) (i : Nat) (html : JSString)
    (h : articleTemplate eng a i = .normal html) :
    ∃ (titulo subtitulo : Option JSString) (body : JSString),
      html =
        "\n        <div class=\"mb-4\">\n          <h4 class=\"mb-1\">".toList
        ++ escapeHtml titulo
        ++ "</h4>\n          <div class=\"text-muted mb-2\">".toList
        ++ escapeHtml subtitulo
        ++ ("</div>\n          <div class=\"border rounded p-3 bg-white\" " ++
            "style=\"white-space:pre-wrap\">").toList
        ++ body
        ++ "</div>\n        </div>\n      ".toList := by
  unfold articleTemplate at h
  obtain ⟨titulo, _, h⟩ := (andThen_eq_normal _ _ _).mp h
  obtain ⟨hd, hhd, h⟩ := (andThen_eq_normal _ _ _).mp h
  obtain ⟨subtitulo, _, h⟩ := (andThen_eq_normal _ _ _).mp h
  obtain ⟨sub, hsub, h⟩ := (andThen_eq_normal _ _ _).mp h
  obtain ⟨articulo, _, h⟩ := (andThen_eq_normal _ _ _).mp h
  obtain ⟨body, _, h⟩ := (andThen_eq_normal _ _ _).mp h
  obtain ⟨o1, ho1⟩ := escapeHtmlCall_normal eng _ hd hhd
  obtain ⟨o2, ho2⟩ := escapeHtmlCall_normal eng _ sub hsub
  simp only [Completion.normal.injEq] at h
  exact ⟨o1, o2, body, by rw [← h, ho1, ho2]⟩

theorem articleTemplate_head? (eng : Engine) (a : JSValue) (i : Nat) (html : JSString)
    (h : articleTemplate eng a i = .normal html) : html.head? = some '\n' := by
  obtain ⟨_, _, _, rfl⟩ := articleTemplate_normal eng a i html h
  rfl

theorem mapIndexed_total {α β : Type} (f : α → Nat → Completion β) (l : List α) (i : Nat)
    (h : ∀ (k : Nat) (a : α), l[k]? = some a → ∃ b, f a (i + k) = .normal b) :
    ∃ bs, mapIndexed f l i = .normal bs ∧ bs.length = l.length ∧
      ∀ (k : Nat) (a : α) (b : β), l[k]? = some a → f a (i + k) = .normal b →
        bs[k]? = some b := by
  induction l generalizing i with
  | nil => exact ⟨[], rfl, rfl, fun k a b hk => by simp at hk⟩
  | cons x tl ih =>
    obtain ⟨b0, hb0⟩ := h 0 x (by simp)
    have htl : ∀ (k : Nat) (a : α), tl[k]? = some a → ∃ b, f a (i + 1 + k) = .normal b := by
      intro k a hk
      have := h (k + 1) a (by simpa using hk)
      rwa [show i + (k + 1) = i + 1 + k by omega] at this
    obtain ⟨bs, hbs, hlen, hget⟩ := ih (i + 1) htl
    refine ⟨b0 :: bs, ?_, by simp [hlen], ?_⟩
    · rw [mapIndexed]
      rw [Nat.add_zero] at hb0
      simp [hb0, hbs, Completion.andThen]
    · intro k a b hk hf
      cases k with
      | zero =>
        simp only [List.getElem?_cons_zero, Option.some.injEq] at hk
        subst hk
        rw [hb0] at hf
        simp only [Completion.normal.injEq] at hf
        simp [hf]
      | succ k =>
        simp only [List.getElem?_cons_succ] at hk ⊢
        exact hget k a b hk (by rwa [show i + (k + 1) = i + 1 + k by omega] at hf)

theorem mapIndexed_cons_normal {α β : Type} (f : α → Nat → Completion β) (x : α)
    (tl : List α) (i : Nat) (bs : List β) (h : mapIndexed f (x :: tl) i = .normal bs) :
    ∃ b rest, bs = b :: rest ∧ f x i = .normal b := by
  rw [mapIndexed] at h
  obtain ⟨b, hb, h⟩ := (andThen_eq_normal _ _ _).mp h
  obtain ⟨rest, _, h⟩ := (andThen_eq_normal _ _ _).mp h
  simp only [Completion.normal.injEq] at h
  exact ⟨b, rest, h.symm, hb⟩

theorem joinEmpty_head? (h : JSString) (t : List JSString) (c : Char) (hc : h.head? = some c) :
    (joinEmpty (h :: t)).head? = some c := by
  cases h with
  | nil => simp at hc
  | cons d h2 => simpa [joinEmpty] using hc

/-- The markup for a body whose `articulos` is a non-empty array. -/
theorem renderPreview_array (eng : Engine) (data : JSValue) (arts : List JSValue)
    (ha : data.prop "articulos".toList = .array arts) (hne : arts ≠ []) :
    renderPreview eng data =
      (mapIndexed (articleTemplate eng) arts 0).andThen fun blocks =>
        .normal (joinEmpty blocks) := by
  have hd : data.isNullish = false := by
    cases data <;> first | rfl | (exact absurd ha (by simp [JSValue.prop]))
  unfold renderPreview
  rw [getProperty_normal eng data _ hd, ha]
  cases arts with
  | nil => exact absurd rfl hne
  | cons x tl => rfl

/-- The markup for a body, not `null`, whose `articulos` is an empty array
or missing. -/
theorem renderPreview_empty (eng : Engine) (data : JSValue)
    (hd : data.isNullish = false)
    (ha : data.prop "articulos".toList = .array [] ∨
      data.prop "articulos".toList = .undefined) :
    renderPreview eng data = .normal warningNotice := by
  unfold renderPreview
  rw [getProperty_normal eng data _ hd]
  rcases ha with ha | ha <;> rw [ha] <;> rfl

/-! ## The claims on `escapeHtml` and on the rendering -/

/-- C3: for every string, `escapeHtml` is the concatenation, in order over the
characters, of `&amp;` for the ampersand, `&lt;` for less-than, `&gt;` for
greater-than, `&quot;` for the double quote, `&#39;` for the apostrophe, and
the character itself otherwise; for `null`/`undefined` it is the empty
string; and the example of the specification holds. -/
theorem C3_escapeHtml_spec :
    (∀ s : JSString, escapeHtml (some s) = joinEmpty (s.map escapeCharSpec)) ∧
    escapeHtml none = [] ∧
    escapeHtml (some ['<', 'a', '>', '&', Char.ofNat 34, Char.ofNat 39])
      = "&lt;a&gt;&amp;&quot;&#39;".toList :=
  ⟨escapeHtml_eq_spec, by decide, by decide⟩

/-- C10: for every input (string, `null` or `undefined`) the result of
`escapeHtml` contains no less-than, greater-than, double quote (code 34) or
apostrophe (code 39), and every ampersand in it is immediately followed by
one of `amp;`, `lt;`, `gt;`, `quot;`, `#39;`.  The title and the subtitle of
every article block that is rendered and the message of the error block are
results of `escapeHtml`, placed between constant texts. -/
theorem C10_escapeHtml_safe :
    (∀ str : Option JSString,
      (∀ x ∈ escapeHtml str,
        x ≠ '<' ∧ x ≠ '>' ∧ x ≠ Char.ofNat 34 ∧ x ≠ Char.ofNat 39) ∧
      (∀ pre post : JSString, escapeHtml str = pre ++ '&' :: post →
        ∃ e ∈ ["amp;".toList, "lt;".toList, "gt;".toList, "quot;".toList, "#39;".toList],
          e <+: post)) ∧
    (∀ (eng : Engine) (a : JSValue) (i : Nat) (html : JSString),
      articleTemplate eng a i = .normal html →
      ∃ (titulo subtitulo : Option JSString) (body : JSString),
        html =
          "\n        <div class=\"mb-4\">\n          <h4 class=\"mb-1\">".toList
          ++ escapeHtml titulo
          ++ "</h4>\n          <div class=\"text-muted mb-2\">".toList
          ++ escapeHtml subtitulo
          ++ ("</div>\n          <div class=\"border rounded p-3 bg-white\" " ++
              "style=\"white-space:pre-wrap\">").toList
          ++ body
          ++ "</div>\n        </div>\n      ".toList) ∧
    (∀ (pg : Page) (message : JSString),
      (generarCatch pg message).preview =
        "<div class=\"alert alert-danger\">".toList ++ escapeHtml (some message)
        ++ "</div>".toList) := by
  refine ⟨?_, articleTemplate_normal, fun _ _ => rfl⟩
  intro str
  have hnone : escapeHtml str = escapeHtml (some (orEmpty str)) := by
    cases str <;> rfl
  rw [hnone]
  constructor
  · intro x hx
    have h := escapeHtml_no_delimiter _ x hx
    simp only [isMarkupDelimiter, Bool.or_eq_false_iff, beq_eq_false_iff_ne, ne_eq] at h
    exact ⟨h.1.1.1, h.1.1.2, h.1.2, h.2⟩
  · intro pre post h
    exact escapeHtml_ampersands _ pre post h

theorem escapeHtmlCall_textOr (eng : Engine) (t : JSValue) (d : JSString)
    (ht : isAbsentNullOrString t = true) :
    escapeHtmlCall eng (t.orElse (.string d)) = .normal (escapeHtml (some (t.textOr d))) := by
  cases t with
  | undefined => cases d <;> rfl
  | null => cases d <;> rfl
  | string s => cases s <;> cases d <;> rfl
  | bool b => simp [isAbsentNullOrString] at ht
  | number z tx => simp [isAbsentNullOrString] at ht
  | array e => simp [isAbsentNullOrString] at ht
  | object ps => simp [isAbsentNullOrString] at ht

theorem toStr_bodyText (eng : Engine) (w : JSValue) (hw : isAbsentNullOrString w = true) :
    toStr eng w = .normal w.bodyText := by
  cases w with
  | undefined => rfl
  | null => rfl
  | string s => rfl
  | bool b => simp [isAbsentNullOrString] at hw
  | number z tx => simp [isAbsentNullOrString] at hw
  | array e => simp [isAbsentNullOrString] at hw
  | object ps => simp [isAbsentNullOrString] at hw

/-- The block of an article that is not `null` and whose three properties are
each missing, `null` or a string. -/
theorem articleTemplate_typed (eng : Engine) (a : JSValue) (i : Nat)
    (hn : a.isNullish = false)
    (ht : isAbsentNullOrString (a.prop "titulo".toList) = true)
    (hs : isAbsentNullOrString (a.prop "subtitulo".toList) = true)
    (hb : isAbsentNullOrString (a.prop "articulo".toList) = true) :
    articleTemplate eng a i = .normal
      ("\n        <div class=\"mb-4\">\n          <h4 class=\"mb-1\">".toList
      ++ escapeHtml (some ((a.prop "titulo".toList).textOr
          ("Artículo ".toList ++ numberToString (i + 1))))
      ++ "</h4>\n          <div class=\"text-muted mb-2\">".toList
      ++ escapeHtml (some ((a.prop "subtitulo".toList).textOr []))
      ++ ("</div>\n          <div class=\"border rounded p-3 bg-white\" " ++
          "style=\"white-space:pre-wrap\">").toList
      ++ (a.prop "articulo".toList).bodyText
      ++ "</div>\n        </div>\n      ".toList) := by
  unfold articleTemplate
  rw [getProperty_normal eng a "titulo".toList hn,
    getProperty_normal eng a "subtitulo".toList hn,
    getProperty_normal eng a "articulo".toList hn]
  simp only [Completion.andThen, escapeHtmlCall_textOr eng _ _ ht,
    escapeHtmlCall_textOr eng _ _ hs, toStr_bodyText eng _ hb]

/-- C4, as stated, fails: the ok response `{articulos: [{titulo: 123, ...}]}`
has a non-empty list, and so has `{articulos: [null]}`; for both the
operation ends with status `Error` and the error block, since `escapeHtml` of
a number and reading a property of `null` throw inside the `try` block. -/
theorem C4_counterexample :
    (generarArticulos sampleEngine examplePage
        (fun _ => .fulfilled (sampleResponse true 200 []
          (bodyWith (.array [numberTitleArticulo]))))).status = "Error".toList ∧
    (generarArticulos sampleEngine examplePage
        (fun _ => .fulfilled (sampleResponse true 200 []
          (bodyWith (.array [numberTitleArticulo]))))).preview.take 32
      = "<div class=\"alert alert-danger\">".toList ∧
    (generarArticulos sampleEngine examplePage
        (fun _ => .fulfilled (sampleResponse true 200 []
          (bodyWith (.array [.null]))))).status = "Error".toList ∧
    "Error".toList ≠ "Completado".toList := by
  refine ⟨by rfl, by rfl, by rfl, by decide⟩

/-- C4, amended: for every successful response whose `articulos` is a
non-empty array of values other than `null`, each with `titulo`, `subtitulo`
and `articulo` missing, `null` or a string, the status becomes `Completado`
and the preview is the concatenation of one block per article, in order; the
block at position `k` (zero-based) has in its heading the escaped title, or
the escaped `Artículo k+1` when the title is missing, `null` or empty, in its
subtitle element the escaped subtitle, or nothing when it is missing or
`null`, and the body inserted as it is (a string verbatim, `null` and
`undefined` as these words). -/
theorem C4_preview_blocks (eng : Engine) (pg : Page) (fetch : Request → Outcome Response)
    (res : Response) (data : JSValue) (arts : List JSValue)
    (hf : fetch (generarRequest pg) = .fulfilled res) (hok : res.ok = true)
    (hj : res.json = .fulfilled data)
    (ha : data.prop "articulos".toList = .array arts) (hne : arts ≠ [])
    (hart : ∀ a ∈ arts, a.isNullish = false ∧
      isAbsentNullOrString (a.prop "titulo".toList) = true ∧
      isAbsentNullOrString (a.prop "subtitulo".toList) = true ∧
      isAbsentNullOrString (a.prop "articulo".toList) = true) :
    (generarArticulos eng pg fetch).status = "Completado".toList ∧
    (∃ blocks : List JSString,
      (generarArticulos eng pg fetch).preview = joinEmpty blocks ∧
      blocks.length = arts.length ∧
      ∀ (k : Nat) (a : JSValue), arts[k]? = some a →
        blocks[k]? = some (
          "\n        <div class=\"mb-4\">\n          <h4 class=\"mb-1\">".toList
          ++ escapeHtml (some
              (match a.prop "titulo".toList with
               | .string t => if t = [] then "Artículo ".toList ++ Nat.toDigits 10 (k + 1) else t
               | _ => "Artículo ".toList ++ Nat.toDigits 10 (k + 1)))
          ++ "</h4>\n          <div class=\"text-muted mb-2\">".toList
          ++ escapeHtml (some
              (match a.prop "subtitulo".toList with
               | .string t => t
               | _ => []))
          ++ ("</div>\n          <div class=\"border rounded p-3 bg-white\" " ++
              "style=\"white-space:pre-wrap\">").toList
          ++ (match a.prop "articulo".toList with
              | .string b => b
              | .null => "null".toList
              | _ => "undefined".toList)
          ++ "</div>\n        </div>\n      ".toList)) := by
  have hmem : ∀ (k : Nat) (a : JSValue), arts[k]? = some a → a ∈ arts :=
    fun _ _ hk => List.getElem?_mem hk
  have htyped : ∀ (k : Nat) (a : JSValue), arts[k]? = some a →
      articleTemplate eng a k = .normal _ :=
    fun k a hk =>
      articleTemplate_typed eng a k (hart a (hmem k a hk)).1 (hart a (hmem k a hk)).2.1
        (hart a (hmem k a hk)).2.2.1 (hart a (hmem k a hk)).2.2.2
  obtain ⟨bs, hbs, hlen, hget⟩ := mapIndexed_total (articleTemplate eng) arts 0
    (fun k a hk => ⟨_, by rw [Nat.zero_add]; exact htyped k a hk⟩)
  have hr : renderPreview eng data = .normal (joinEmpty bs) := by
    rw [renderPreview_array eng data arts ha hne, hbs]; rfl
  obtain ⟨hs, hp⟩ := generarArticulos_ok_normal eng pg fetch res data _ hf hok hj hr
  refine ⟨hs, bs, hp, hlen, ?_⟩
  intro k a hk
  refine hget k a _ hk ?_
  have hsub : ∀ u : JSValue, u.textOr [] = (match u with | .string t => t | _ => []) := by
    intro u
    cases u with
    | string t => cases t <;> rfl
    | _ => rfl
  rw [Nat.zero_add, htyped k a hk, hsub]
  rfl

/-- C4 at a response with two articles, the one of the example of the
specification and one without title and subtitle: two blocks in order, the
second under the heading `Artículo 2`. -/
theorem C4_preview_blocks_witness :
    (generarArticulos sampleEngine examplePage
        (fun _ => .fulfilled (sampleResponse true 200 []
          (bodyWith (.array [sampleArticulo, untitledArticulo]))))).preview =
      ("\n        <div class=\"mb-4\">\n          <h4 class=\"mb-1\">T</h4>\n" ++
       "          <div class=\"text-muted mb-2\">S</div>\n" ++
       "          <div class=\"border rounded p-3 bg-white\" " ++
       "style=\"white-space:pre-wrap\"><b>x</b></div>\n        </div>\n      " ++
       "\n        <div class=\"mb-4\">\n          <h4 class=\"mb-1\">Artículo 2</h4>\n" ++
       "          <div class=\"text-muted mb-2\"></div>\n" ++
       "          <div class=\"border rounded p-3 bg-white\" " ++
       "style=\"white-space:pre-wrap\">y</div>\n        </div>\n      ").toList ∧
    (generarArticulos sampleEngine examplePage
        (fun _ => .fulfilled (sampleResponse true 200 []
          (bodyWith (.array [sampleArticulo, untitledArticulo]))))).status
      = "Completado".toList := by
  obtain ⟨hs, ⟨blocks, hp, hlen, hk⟩⟩ := C4_preview_blocks sampleEngine examplePage
    (fun _ => .fulfilled (sampleResponse true 200 []
      (bodyWith (.array [sampleArticulo, untitledArticulo]))))
    (sampleResponse true 200 [] (bodyWith (.array [sampleArticulo, untitledArticulo])))
    (bodyWith (.array [sampleArticulo, untitledArticulo]))
    [sampleArticulo, untitledArticulo] rfl rfl rfl rfl (by simp) (by decide)
  refine ⟨?_, hs⟩
  have h0 := hk 0 sampleArticulo (by simp)
  have h1 := hk 1 untitledArticulo (by simp)
  match blocks, hlen, h0, h1 with
  | [b0, b1], _, h0, h1 =>
    simp only [List.getElem?_cons_zero, List.getElem?_cons_succ, Option.some.injEq] at h0 h1
    rw [hp, h0, h1]
    decide!

/-- C5, as stated, fails: the ok response whose JSON body is `null` has no
`articulos` property; reading it throws inside the `try` block, and the
operation ends with status `Error` and the error block, not with the warning
notice. -/
theorem C5_counterexample :
    (generarArticulos sampleEngine examplePage
        (fun _ => .fulfilled (sampleResponse true 200 [] .null))).status = "Error".toList ∧
    (generarArticulos sampleEngine examplePage
        (fun _ => .fulfilled (sampleResponse true 200 [] .null))).preview.take 32
      = "<div class=\"alert alert-danger\">".toList ∧
    "Error".toList ≠ "Completado".toList := by
  refine ⟨by rfl, by rfl, by decide⟩

/-- C5, amended: for every successful response whose parsed body is not
`null` and has an empty `articulos` array or no `articulos` property, the
preview is exactly the warning notice and the status becomes `Completado`. -/
theorem C5_empty_warning (eng : Engine) (pg : Page) (fetch : Request → Outcome Response)
    (res : Response) (data : JSValue)
    (hf : fetch (generarRequest pg) = .fulfilled res) (hok : res.ok = true)
    (hj : res.json = .fulfilled data) (hd : data.isNullish = false)
    (ha : data.prop "articulos".toList = .array [] ∨
      data.prop "articulos".toList = .undefined) :
    (generarArticulos eng pg fetch).preview
      = "<div class=\"alert alert-warning\">No se generaron artículos.</div>".toList ∧
    (generarArticulos eng pg fetch).status = "Completado".toList := by
  obtain ⟨hs, hp⟩ := generarArticulos_ok_normal eng pg fetch res data _ hf hok hj
    (renderPreview_empty eng data hd ha)
  exact ⟨hp, hs⟩

/-- C5 at the response `{articulos: []}` and at the response `{}`. -/
theorem C5_empty_warning_witness :
    (generarArticulos sampleEngine examplePage
        (fun _ => .fulfilled (sampleResponse true 200 [] (bodyWith (.array []))))).preview
      = "<div class=\"alert alert-warning\">No se generaron artículos.</div>".toList ∧
    (generarArticulos sampleEngine examplePage
        (fun _ => .fulfilled (sampleResponse true 200 [] (.object [])))).preview
      = "<div class=\"alert alert-warning\">No se generaron artículos.</div>".toList :=
  ⟨(C5_empty_warning sampleEngine examplePage _
      (sampleResponse true 200 [] (bodyWith (.array []))) (bodyWith (.array []))
      rfl rfl rfl rfl (Or.inl rfl)).1,
   (C5_empty_warning sampleEngine examplePage _
      (sampleResponse true 200 [] (.object [])) (.object [])
      rfl rfl rfl rfl (Or.inr rfl)).1⟩

/-- C6: for every response that is not ok, with status code `c` and body text
`t`, the status becomes `Error` and the preview is the single danger block
holding the escaped text `Error c: t`; it is neither the warning notice nor a
sequence of article blocks. -/
theorem C6_error_block (eng : Engine) (pg : Page) (fetch : Request → Outcome Response)
    (res : Response) (t : JSString)
    (hf : fetch (generarRequest pg) = .fulfilled res) (hok : res.ok = false)
    (ht : res.text = .fulfilled t) :
    (generarArticulos eng pg fetch).status = "Error".toList ∧
    (generarArticulos eng pg fetch).preview
      = "<div class=\"alert alert-danger\">".toList
        ++ escapeHtml (some ("Error ".toList ++ Nat.toDigits 10 res.status ++ ": ".toList ++ t))
        ++ "</div>".toList ∧
    (generarArticulos eng pg fetch).preview ≠ warningNotice ∧
    (∀ (arts : List JSValue) (blocks : List JSString), arts ≠ [] →
      mapIndexed (articleTemplate eng) arts 0 = .normal blocks →
      (generarArticulos eng pg fetch).preview ≠ joinEmpty blocks) := by
  rw [generarArticulos_not_ok eng pg fetch res t hf hok ht]
  refine ⟨rfl, rfl, ?_, ?_⟩
  · intro h
    have h2 := congrArg (fun l : JSString => l[24]?) h
    revert h2
    simp only [generarCatch, List.append_assoc]
    rw [List.getElem?_append_left (by decide)]
    decide
  · intro arts blocks hne hb h
    cases arts with
    | nil => exact hne rfl
    | cons a tl =>
      obtain ⟨b, rest, rfl, hfb⟩ := mapIndexed_cons_normal _ a tl 0 blocks hb
      have h2 := congrArg List.head? h
      rw [joinEmpty_head? _ _ '\n' (articleTemplate_head? eng a 0 b hfb)] at h2
      revert h2
      simp only [generarCatch, List.append_assoc]
      rw [List.head?_append_of_ne_nil _ (by decide)]
      decide

/-- C6 at the example of the specification: status 500 with body `boom`. -/
theorem C6_error_block_witness :
    (generarArticulos sampleEngine examplePage
        (fun _ => .fulfilled (sampleResponse false 500 "boom".toList .null))).status
      = "Error".toList ∧
    (generarArticulos sampleEngine examplePage
        (fun _ => .fulfilled (sampleResponse false 500 "boom".toList .null))).preview
      = "<div class=\"alert alert-danger\">Error 500: boom</div>".toList := by
  have h := C6_error_block sampleEngine examplePage
    (fun _ => .fulfilled (sampleResponse false 500 "boom".toList .null))
    (sampleResponse false 500 "boom".toList .null) "boom".toList rfl rfl rfl
  exact ⟨h.1, h.2.1.trans (by rfl)⟩

/-! ## The payload -/

theorem pow_log2Fuel_le (fuel n : Nat) (hn : 1 ≤ n) : 2 ^ log2Fuel fuel n ≤ n := by
  induction fuel generalizing n with
  | zero => simpa [log2Fuel] using hn
  | succ fuel ih =>
    rw [log2Fuel]
    by_cases h2 : n < 2
    · simpa [h2] using hn
    · rw [if_neg h2, Nat.pow_succ]
      have h1 : 1 ≤ n / 2 := by omega
      have := ih (n / 2) h1
      omega

theorem le_roundedSignificand (n e : Nat) : n / 2 ^ e ≤ roundedSignificand n e := by
  unfold roundedSignificand
  simp only
  split <;> omega

/-- Rounding a positive integer gives a finite value that is at least 1, or
`Infinity`. -/
theorem roundToDouble_pos (n : Nat) (hn : 1 ≤ n) :
    (∃ v : Int, 1 ≤ v ∧ roundToDouble n = .finite v) ∨
      roundToDouble n = .infinity false := by
  unfold roundToDouble
  by_cases h53 : n < 2 ^ 53
  · left
    rw [if_pos h53]
    exact ⟨n, by exact_mod_cast hn, rfl⟩
  · rw [if_neg h53]
    by_cases hov : overflowThreshold ≤
        roundedSignificand n (floorLog2 n - 52) * 2 ^ (floorLog2 n - 52)
    · right
      simp only [hov, if_true]
    · left
      simp only [hov, if_false]
      refine ⟨_, ?_, rfl⟩
      have hle : 2 ^ (floorLog2 n - 52) ≤ n :=
        le_trans (Nat.pow_le_pow_right (by decide) (Nat.sub_le _ _))
          (pow_log2Fuel_le n n hn)
      have hpos : 0 < 2 ^ (floorLog2 n - 52) := Nat.pow_pos (by decide)
      have hq : 1 ≤ n / 2 ^ (floorLog2 n - 52) := (Nat.one_le_div_iff hpos).mpr hle
      have hq1 := le_trans hq (le_roundedSignificand n (floorLog2 n - 52))
      have := Nat.mul_le_mul hq1 hpos
      exact_mod_cast this

theorem readSign_fst (f : JSString) (h : (trimStart f).head? ≠ some '-') :
    (readSign (trimStart f)).1 = false := by
  unfold readSign
  cases hS : trimStart f with
  | nil => rfl
  | cons c r =>
    have hc : c ≠ '-' := by
      intro hc; rw [hS, hc] at h; exact h rfl
    simp only [hc, if_false]
    split <;> rfl

/-- Without a minus sign `parseInt` gives `NaN`, zero, a finite value that is
at least 1, or `Infinity`. -/
theorem parseInt_unsigned (f : JSString) (h : (trimStart f).head? ≠ some '-') :
    parseInt f = .nan ∨ parseInt f = .finite 0 ∨
      (∃ v : Int, 1 ≤ v ∧ parseInt f = .finite v) ∨ parseInt f = .infinity false := by
  unfold parseInt
  simp only [readSign_fst f h, Bool.false_eq_true, if_false]
  split
  · left; rfl
  · right
    by_cases h0 : digitsValue (List.takeWhile Char.isDigit (readSign (trimStart f)).2) = 0
    · left
      rw [h0]; rfl
    · right
      exact roundToDouble_pos _ (Nat.one_le_iff_ne_zero.mpr h0)

theorem orNumber_truthy (x d : Number) (hd1 : d ≠ .nan) (hd2 : d ≠ .finite 0) :
    orNumber x d ≠ .nan ∧ orNumber x d ≠ .finite 0 := by
  unfold orNumber
  cases x with
  | nan => exact ⟨hd1, hd2⟩
  | finite v =>
    by_cases hv : v = 0
    · simp only [hv, if_true]; exact ⟨hd1, hd2⟩
    · simp only [hv, if_false]
      exact ⟨by simp, by simp [hv]⟩
  | infinity b => exact ⟨by simp, by simp⟩

theorem orNumber_ge_one (x : Number) (d : Int) (hd : 1 ≤ d)
    (hx : x = .nan ∨ x = .finite 0 ∨ (∃ v : Int, 1 ≤ v ∧ x = .finite v) ∨
      x = .infinity false) :
    (∃ v : Int, 1 ≤ v ∧ orNumber x (.finite d) = .finite v) ∨
      orNumber x (.finite d) = .infinity false := by
  rcases hx with h | h | ⟨v, hv, h⟩ | h
  · left; exact ⟨d, hd, by rw [h]; rfl⟩
  · left; exact ⟨d, hd, by rw [h]; rfl⟩
  · left
    refine ⟨v, hv, ?_⟩
    rw [h]
    have : v ≠ 0 := by omega
    simp [orNumber, this]
  · right; rw [h]; rfl

theorem orNumber_of_truthy (x d : Number) (h1 : x ≠ .nan) (h2 : x ≠ .finite 0) :
    orNumber x d = x := by
  unfold orNumber
  cases x with
  | nan => exact absurd rfl h1
  | finite v =>
    have : v ≠ 0 := fun h0 => h2 (by rw [h0])
    simp [this]
  | infinity b => rfl

/-- C7, as stated, fails: a field holding `-3` gives `num_articulos = -3` and
`items_por_articulo = -3` in the request of both operations, and a field of
310 nines gives `Infinity`, which is no integer. -/
theorem C7_counterexample :
    (generarRequest { emptyPage with form :=
        { emptyPage.form with num_articulos := "-3".toList,
                              items_por_articulo := "-3".toList } }).body.num_articulos
      = .finite (-3) ∧
    (generarRequest { emptyPage with form :=
        { emptyPage.form with num_articulos := "-3".toList,
                              items_por_articulo := "-3".toList } }).body.items_por_articulo
      = .finite (-3) ∧
    (exportarRequest { emptyPage with form :=
        { emptyPage.form with num_articulos := "-3".toList,
                              items_por_articulo := "-3".toList } }).body.num_articulos
      = .finite (-3) ∧
    (exportarRequest { emptyPage with form :=
        { emptyPage.form with num_articulos := "-3".toList,
                              items_por_articulo := "-3".toList } }).body.items_por_articulo
      = .finite (-3) ∧
    ¬ ((1 : Int) ≤ -3) ∧
    (generarRequest { emptyPage with form :=
        { emptyPage.form with num_articulos := List.replicate 310 '9' } }).body.num_articulos
      = .infinity false := by
  decide!

/-- C7, amended: both operations send the same payload; in it `num_articulos`
is `parseInt` of its field, or 1 when that is `NaN` or zero, and
`items_por_articulo` is `parseInt` of its field, or 5 when that is `NaN` or
zero.  Neither is ever `NaN` or zero; each is an integer that is at least 1,
or `Infinity`, when its field, after leading white space, does not begin with
a minus sign; and each is its default when the field is empty or does not
start with an integer. -/
theorem C7_counts (pg : Page) :
    (generarRequest pg).body = payload pg.form ∧
    (exportarRequest pg).body = payload pg.form ∧
    ((payload pg.form).num_articulos ≠ .nan ∧
      (payload pg.form).num_articulos ≠ .finite 0) ∧
    ((payload pg.form).items_por_articulo ≠ .nan ∧
      (payload pg.form).items_por_articulo ≠ .finite 0) ∧
    ((trimStart pg.form.num_articulos).head? ≠ some '-' →
      (∃ v : Int, 1 ≤ v ∧ (payload pg.form).num_articulos = .finite v) ∨
        (payload pg.form).num_articulos = .infinity false) ∧
    ((trimStart pg.form.items_por_articulo).head? ≠ some '-' →
      (∃ v : Int, 1 ≤ v ∧ (payload pg.form).items_por_articulo = .finite v) ∨
        (payload pg.form).items_por_articulo = .infinity false) ∧
    (parseInt pg.form.num_articulos = .nan ∨ parseInt pg.form.num_articulos = .finite 0 →
      (payload pg.form).num_articulos = .finite 1) ∧
    (parseInt pg.form.items_por_articulo = .nan ∨
        parseInt pg.form.items_por_articulo = .finite 0 →
      (payload pg.form).items_por_articulo = .finite 5) ∧
    (parseInt pg.form.num_articulos ≠ .nan → parseInt pg.form.num_articulos ≠ .finite 0 →
      (payload pg.form).num_articulos = parseInt pg.form.num_articulos) ∧
    (parseInt pg.form.items_por_articulo ≠ .nan →
        parseInt pg.form.items_por_articulo ≠ .finite 0 →
      (payload pg.form).items_por_articulo = parseInt pg.form.items_por_articulo) ∧
    parseInt [] = .nan := by
  refine ⟨rfl, rfl, orNumber_truthy _ _ (by decide) (by decide),
    orNumber_truthy _ _ (by decide) (by decide), ?_, ?_, ?_, ?_, ?_, ?_, by decide⟩
  · intro h
    exact orNumber_ge_one _ 1 (by decide) (parseInt_unsigned _ h)
  · intro h
    exact orNumber_ge_one _ 5 (by decide) (parseInt_unsigned _ h)
  · intro h
    show orNumber (parseInt pg.form.num_articulos) (.finite 1) = .finite 1
    rcases h with h | h <;> rw [h] <;> rfl
  · intro h
    show orNumber (parseInt pg.form.items_por_articulo) (.finite 5) = .finite 5
    rcases h with h | h <;> rw [h] <;> rfl
  · intro h1 h2
    exact orNumber_of_truthy _ _ h1 h2
  · intro h1 h2
    exact orNumber_of_truthy _ _ h1 h2

/-- C7 at concrete fields: `12px` gives 12, which is at least 1; `abc` gives
the default 5; and 9007199254740993 is sent as the double next to it. -/
theorem C7_counts_witness :
    (payload { emptyPage.form with num_articulos := "12px".toList,
                                   items_por_articulo := "abc".toList }).num_articulos
      = .finite 12 ∧
    (payload { emptyPage.form with num_articulos := "12px".toList,
                                   items_por_articulo := "abc".toList }).items_por_articulo
      = .finite 5 ∧
    (payload { emptyPage.form with
        num_articulos := "9007199254740993".toList }).num_articulos
      = .finite 9007199254740992 :=
  ⟨((C7_counts { emptyPage with form :=
      { emptyPage.form with num_articulos := "12px".toList,
                            items_por_articulo := "abc".toList } }).2.2.2.2.2.2.2.2.1
      (by decide) (by decide)).trans (by decide),
   (C7_counts { emptyPage with form :=
      { emptyPage.form with num_articulos := "12px".toList,
                            items_por_articulo := "abc".toList } }).2.2.2.2.2.2.2.1
      (Or.inl (by decide)),
   ((C7_counts { emptyPage with form :=
      { emptyPage.form with num_articulos := "9007199254740993".toList } }).2.2.2.2.2.2.2.2.1
      (by decide!) (by decide!)).trans (by decide!)⟩

/-! ## Trimming and splitting -/

theorem trimEnd_initial (s : JSString) : trimEnd s <+: s := by
  unfold trimEnd
  have h := List.dropWhile_suffix (l := s.reverse) isWhiteSpace
  have h2 := List.reverse_prefix.mpr h
  simpa using h2

theorem trim_subset (s : JSString) : trim s ⊆ s := by
  unfold trim
  intro x hx
  have h1 := (trimEnd_initial (trimStart s)).subset hx
  exact (List.dropWhile_suffix (l := s) isWhiteSpace).subset h1

theorem trim_getLast? (s : JSString) (c : Char) (h : (trim s).getLast? = some c) :
    isWhiteSpace c = false := by
  unfold trim trimEnd at h
  rw [List.getLast?_reverse] at h
  have h2 := List.head?_dropWhile_not isWhiteSpace (trimStart s).reverse
  rw [h] at h2
  exact h2

theorem trim_head? (s : JSString) (c : Char) (h : (trim s).head? = some c) :
    isWhiteSpace c = false := by
  have hne : trim s ≠ [] := by
    intro h0; rw [h0] at h; exact absurd h (by simp)
  obtain ⟨t, ht⟩ := trimEnd_initial (trimStart s)
  have h3 : (trimStart s).head? = some c := by
    rw [← ht]
    show (trim s ++ t).head? = some c
    rw [List.head?_append_of_ne_nil _ hne]; exact h
  have h2 := List.head?_dropWhile_not isWhiteSpace s
  unfold trimStart at h3
  rw [h3] at h2
  exact h2

theorem split_ne_nil (sep : Char) (s : JSString) : split sep s ≠ [] := by
  cases s with
  | nil => simp [split]
  | cons c tl =>
    rw [split]
    split
    · simp
    · split <;> simp

theorem split_no_sep (sep : Char) (s : JSString) : ∀ seg ∈ split sep s, sep ∉ seg := by
  induction s with
  | nil => intro seg h; simp [split] at h; simp [h]
  | cons c tl ih =>
    intro seg h
    rw [split] at h
    by_cases hc : c = sep
    · simp only [hc, if_true, List.mem_cons] at h
      rcases h with h | h
      · simp [h]
      · exact ih seg h
    · simp only [hc, if_false] at h
      cases hsp : split sep tl with
      | nil => exact absurd hsp (split_ne_nil sep tl)
      | cons hd t =>
        rw [hsp] at h ih
        simp only [List.mem_cons] at h
        rcases h with h | h
        · rw [h]
          intro hmem
          rcases List.mem_cons.mp hmem with h1 | h1
          · exact hc h1.symm
          · exact ih hd (List.mem_cons_self _ _) h1
        · exact ih seg (List.mem_cons_of_mem _ h)

theorem joinWith_split (sep : Char) (s : JSString) : joinWith sep (split sep s) = s := by
  induction s with
  | nil => rfl
  | cons c tl ih =>
    rw [split]
    by_cases hc : c = sep
    · simp only [hc, if_true]
      cases hsp : split sep tl with
      | nil => exact absurd hsp (split_ne_nil sep tl)
      | cons hd t =>
        rw [hsp] at ih
        simp only [joinWith, List.nil_append, ih]
    · simp only [hc, if_false]
      cases hsp : split sep tl with
      | nil => exact absurd hsp (split_ne_nil sep tl)
      | cons hd t =>
        rw [hsp] at ih
        cases t with
        | nil => simp only [joinWith] at ih ⊢; rw [ih]
        | cons y t2 => simp only [joinWith, List.cons_append] at ih ⊢; rw [ih]

/-- C8: the secondary keywords are the segments of the field between its
commas (the segments hold no comma and, joined with commas, give the field
back), each trimmed, the empty ones dropped, in order; every keyword is
non-empty, neither begins nor ends with white space and holds no comma; and
the example of the specification holds. -/
theorem C8_secondary_keywords (pg : Page) :
    (generarRequest pg).body.palabras_clave_secundarias = kw_sec pg.form.kw_sec ∧
    (exportarRequest pg).body.palabras_clave_secundarias = kw_sec pg.form.kw_sec ∧
    kw_sec pg.form.kw_sec
      = ((split ',' pg.form.kw_sec).map trim).filter (fun x => decide (x ≠ [])) ∧
    joinWith ',' (split ',' pg.form.kw_sec) = pg.form.kw_sec ∧
    (∀ seg ∈ split ',' pg.form.kw_sec, ',' ∉ seg) ∧
    (∀ x ∈ kw_sec pg.form.kw_sec,
      x ≠ [] ∧
      (∀ c, x.head? = some c → isWhiteSpace c = false) ∧
      (∀ c, x.getLast? = some c → isWhiteSpace c = false) ∧
      ',' ∉ x) ∧
    kw_sec "a, b ,,c".toList = ["a".toList, "b".toList, "c".toList] := by
  have hfilter : ∀ l : List JSString,
      l.filter truthy = l.filter (fun x => decide (x ≠ [])) := by
    intro l
    congr 1
    funext x
    cases x <;> simp [truthy]
  refine ⟨rfl, rfl, hfilter _, joinWith_split _ _, split_no_sep _ _, ?_, by decide⟩
  intro x hx
  unfold kw_sec at hx
  rw [List.mem_filter, List.mem_map] at hx
  obtain ⟨⟨seg, hseg, rfl⟩, hne⟩ := hx
  refine ⟨?_, trim_head? seg, trim_getLast? seg, ?_⟩
  · intro h0; rw [h0] at hne; simp [truthy] at hne
  · intro hmem
    exact split_no_sep ',' _ seg hseg (trim_subset seg hmem)

/-! ## Page ready -/

theorem includes_iff (s pat : JSString) : includes s pat = true ↔ pat <:+: s := by
  induction s with
  | nil => simp [includes, List.isEmpty_iff]
  | cons c tl ih =>
    rw [includes, Bool.or_eq_true, ih, List.infix_cons_iff, List.isPrefixOf_iff_prefix]

theorem loadApiBase_ne_nil (ls : LocalStorage) : loadApiBase ls ≠ [] := by
  unfold loadApiBase
  have hd : DEFAULT_API_BASE ≠ [] := by decide
  split
  · split
    · split
      · rename_i h
        simp only [Bool.and_eq_true, truthy, Bool.not_eq_true', List.isEmpty_eq_false] at h
        intro h0
        simp only [truthy, Bool.and_eq_true, Bool.not_eq_true', List.isEmpty_eq_false] at *
        simp_all
      · exact hd
    · exact hd
  · exact hd

theorem loadApiBase_saved (ls : LocalStorage) (saved : JSString)
    (ha : ls.available = true) (hs : ls.api_base = some saved) (ht : trim saved ≠ []) :
    loadApiBase ls = trim saved := by
  have hsaved : saved ≠ [] := by
    intro h0; rw [h0] at ht; exact ht rfl
  unfold loadApiBase
  rw [if_pos ha, hs]
  have : (truthy saved && truthy (trim saved)) = true := by
    cases h1 : saved with
    | nil => exact absurd h1 hsaved
    | cons a b =>
      rw [← h1]
      cases h2 : trim saved with
      | nil => exact absurd h2 ht
      | cons x y => simp [truthy, h1]
  simp only [this, if_true]

theorem loadApiBase_default (ls : LocalStorage)
    (h : ls.available = false ∨ ls.api_base = none ∨
      ∃ saved, ls.api_base = some saved ∧ trim saved = []) :
    loadApiBase ls = DEFAULT_API_BASE := by
  unfold loadApiBase
  rcases h with h | h | ⟨saved, h, ht⟩
  · simp [h]
  · simp [h]
  · rw [h]
    simp [ht, truthy]

/-- C9: on page ready, when the trimmed API-base field is empty or contains
`localhost`, the field receives the trimmed stored `api_base` if storage can
be read and holds a value that is not blank, and the default address if
storage cannot be read, holds nothing or holds a blank value; what it
receives is never empty.  Otherwise the page is left as it is. -/
theorem C9_page_ready (pg : Page) :
    ((trim pg.form.api_base = [] ∨ "localhost".toList <:+: trim pg.form.api_base) →
      (∀ saved : JSString, pg.storage.available = true →
        pg.storage.api_base = some saved → trim saved ≠ [] →
        (onDOMContentLoaded pg).form.api_base = trim saved) ∧
      ((pg.storage.available = false ∨ pg.storage.api_base = none ∨
          ∃ saved, pg.storage.api_base = some saved ∧ trim saved = []) →
        (onDOMContentLoaded pg).form.api_base
          = "https://frontend-api-production-060a.up.railway.app".toList) ∧
      (onDOMContentLoaded pg).form.api_base ≠ []) ∧
    (¬ (trim pg.form.api_base = [] ∨ "localhost".toList <:+: trim pg.form.api_base) →
      onDOMContentLoaded pg = pg) := by
  have hcond : ((trim (orEmpty (some pg.form.api_base))).isEmpty
        || includes (trim (orEmpty (some pg.form.api_base))) "localhost".toList) = true ↔
      (trim pg.form.api_base = [] ∨ "localhost".toList <:+: trim pg.form.api_base) := by
    rw [Bool.or_eq_true, includes_iff, List.isEmpty_iff]; rfl
  constructor
  · intro h
    have hc := hcond.mpr h
    have hval : (onDOMContentLoaded pg).form.api_base = loadApiBase pg.storage := by
      unfold onDOMContentLoaded
      simp only [hc, if_true]
    rw [hval]
    exact ⟨fun saved ha hs ht => loadApiBase_saved _ saved ha hs ht,
      fun hd => loadApiBase_default _ hd, loadApiBase_ne_nil _⟩
  · intro h
    have hc : ¬ ((trim (orEmpty (some pg.form.api_base))).isEmpty
        || includes (trim (orEmpty (some pg.form.api_base))) "localhost".toList) = true :=
      fun hh => h (hcond.mp hh)
    unfold onDOMContentLoaded
    simp only [hc, Bool.false_eq_true, if_false]

/-- C9 at a page whose field holds `http://localhost:8000`, once with a
stored address surrounded by blanks and once with storage that cannot be
read. -/
theorem C9_page_ready_witness :
    (onDOMContentLoaded
      { emptyPage with
        form := { emptyPage.form with api_base := "http://localhost:8000".toList }
        storage := { available := true, api_base := some " https://api.test ".toList } }
      ).form.api_base = "https://api.test".toList ∧
    (onDOMContentLoaded
      { emptyPage with
        form := { emptyPage.form with api_base := "http://localhost:8000".toList }
        storage := { available := false, api_base := some " https://api.test ".toList } }
      ).form.api_base = "https://frontend-api-production-060a.up.railway.app".toList :=
  ⟨((C9_page_ready
      { emptyPage with
        form := { emptyPage.form with api_base := "http://localhost:8000".toList }
        storage := { available := true, api_base := some " https://api.test ".toList } }).1
      (Or.inr (by decide))).1 " https://api.test ".toList rfl rfl (by decide),
   ((C9_page_ready
      { emptyPage with
        form := { emptyPage.form with api_base := "http://localhost:8000".toList }
        storage := { available := false, api_base := some " https://api.test ".toList } }).1
      (Or.inr (by decide))).2.1 (Or.inl rfl)⟩

end UiJs
